import Mathlib

/-!
# Verification of the freshmaker event / artifact-build model

Shallow embedding of `src/freshmaker/models.py`: the event store
(`Event.create` / `get` / `get_or_create`), the artifact-build table
(`ArtifactBuild.create`, the `state` / `type` validators), and the
state-transition engine with its FAILED/CANCELED cascade
(`ArtifactBuild.transition`, `depending_artifact_builds`).

Database rows are modelled as records, tables as lists of records, and the
mutating methods as functions from tables to tables.  `datetime.utcnow()`
is modelled by an explicit `now : Nat` argument.  Logging is modelled by
returning the list of emitted log records.
-/

/-- Modelled from the spec: `freshmaker.types.ArtifactBuildState` is not under
`src/`; the spec (§3) lists the members BUILD (initial), DONE, FAILED,
CANCELED in this order with stable integer codes, so they are assigned
0, 1, 2, 3.  Only distinctness of the codes and the member names matter to
the claims. -/
inductive ArtifactBuildState where
  | BUILD
  | DONE
  | FAILED
  | CANCELED
deriving DecidableEq, Repr

def ArtifactBuildState.value : ArtifactBuildState → Nat
  | .BUILD => 0
  | .DONE => 1
  | .FAILED => 2
  | .CANCELED => 3

def ArtifactBuildState.name : ArtifactBuildState → String
  | .BUILD => "BUILD"
  | .DONE => "DONE"
  | .FAILED => "FAILED"
  | .CANCELED => "CANCELED"

/-- `list(ArtifactBuildState)`: all members, in declaration order. -/
def ArtifactBuildState.all : List ArtifactBuildState :=
  [.BUILD, .DONE, .FAILED, .CANCELED]

/-- Modelled from the spec: `freshmaker.types.ArtifactType` is not under
`src/`; the spec (§3, glossary) only says it is a closed enumeration of
artifact kinds (rpm, module, container image), so those three members are
used.  The validation logic under test is independent of the member names. -/
inductive ArtifactType where
  | RPM
  | MODULE
  | IMAGE
deriving DecidableEq, Repr

def ArtifactType.value : ArtifactType → Nat
  | .RPM => 0
  | .MODULE => 1
  | .IMAGE => 2

def ArtifactType.name : ArtifactType → String
  | .RPM => "RPM"
  | .MODULE => "MODULE"
  | .IMAGE => "IMAGE"

/-- `list(ArtifactType)`: all members, in declaration order. -/
def ArtifactType.all : List ArtifactType :=
  [.RPM, .MODULE, .IMAGE]

/-- A Python value that is either an integer or a string, as accepted by the
`@validates` hooks (`validate_state` / `validate_type`) and by
`Event.create`'s `event_type` argument (where strings stand for the event
classes used as `EVENT_TYPES` keys). -/
inductive IntOrStr where
  | int (n : Nat)
  | str (v : String)
deriving DecidableEq, Repr

/-- The data carried by the `ValueError` raised by `validate_state` /
`validate_type` (models.py line 271 / 279):
`"%s: %s, not in %r" % (key, field, list(Enum))`.  The formatted message
names the column (`key`), the offending value (`field`) and the members of
the enumeration (name and value), so the error is modelled as that
structured payload. -/
structure EnumError where
  key : String
  field : IntOrStr
  valid : List (String × Nat)
deriving DecidableEq, Repr

/-- `list(ArtifactBuildState)` as it appears in the error message: every
member with its name and value. -/
def artifactBuildStateRepr : List (String × Nat) :=
  ArtifactBuildState.all.map (fun s => (s.name, s.value))

/-- `list(ArtifactType)` as it appears in the error message. -/
def artifactTypeRepr : List (String × Nat) :=
  ArtifactType.all.map (fun t => (t.name, t.value))

/-- Python `str.lower()` over the ASCII enum member names, implemented
character-wise so that it computes by kernel reduction. -/
def pyLower (s : String) : String := ⟨s.data.map Char.toLower⟩

/-- Python `str.upper()`, likewise character-wise. -/
def pyUpper (s : String) : String := ⟨s.data.map Char.toUpper⟩

/-- `ArtifactBuild.validate_state` (models.py lines 265-271).

```
if field in [s.value for s in list(ArtifactBuildState)]:
    return field
if field in [s.name.lower() for s in list(ArtifactBuildState)]:
    return ArtifactBuildState[field.upper()].value
raise ValueError("%s: %s, not in %r" % (key, field, list(ArtifactBuildState)))
```

An integer can only match the first membership test and a string only the
second, so the two branches are dispatched on the shape of `field`. -/
def validate_state (key : String) (field : IntOrStr) : Except EnumError Nat :=
  match field with
  | .int n =>
      if (ArtifactBuildState.all.map (fun s => s.value)).contains n then
        .ok n
      else
        .error ⟨key, field, artifactBuildStateRepr⟩
  | .str v =>
      if (ArtifactBuildState.all.map (fun s => pyLower s.name)).contains v then
        .ok ((((ArtifactBuildState.all.find?
          (fun s => s.name = pyUpper v)).map (fun s => s.value))).getD 0)
      else
        .error ⟨key, field, artifactBuildStateRepr⟩

/-- `ArtifactBuild.validate_type` (models.py lines 273-279), same shape as
`validate_state` over `ArtifactType`. -/
def validate_type (key : String) (field : IntOrStr) : Except EnumError Nat :=
  match field with
  | .int n =>
      if (ArtifactType.all.map (fun t => t.value)).contains n then
        .ok n
      else
        .error ⟨key, field, artifactTypeRepr⟩
  | .str v =>
      if (ArtifactType.all.map (fun t => pyLower t.name)).contains v then
        .ok ((((ArtifactType.all.find?
          (fun t => t.name = pyUpper v)).map (fun t => t.value))).getD 0)
      else
        .error ⟨key, field, artifactTypeRepr⟩

/-- One row of the `artifact_builds` table (models.py lines 215-243). -/
structure ArtifactBuild where
  id : Nat
  name : String
  original_nvr : Option String
  rebuilt_nvr : Option String
  type : Nat
  state : Nat
  state_reason : Option String
  time_submitted : Nat
  time_completed : Option Nat
  dep_on_id : Option Nat
  event_id : Option Nat
  build_id : Option Nat
  build_args : Option String
deriving DecidableEq, Repr

/-- SQLAlchemy attribute write of `state`, routed through the
`@validates('state')` hook: an invalid value raises before the attribute is
assigned, so on error the row is untouched. -/
def ArtifactBuild.writeState (b : ArtifactBuild) (v : IntOrStr) :
    Except EnumError ArtifactBuild :=
  (validate_state "state" v).map (fun code => { b with state := code })

/-- SQLAlchemy attribute write of `type`, routed through the
`@validates('type')` hook. -/
def ArtifactBuild.writeType (b : ArtifactBuild) (v : IntOrStr) :
    Except EnumError ArtifactBuild :=
  (validate_type "type" v).map (fun code => { b with type := code })

/-- Python truthiness of `state or ArtifactBuildState.BUILD.value`
(models.py line 257): `None` and `0` are falsy. -/
def pyOrNat (v : Option Nat) (d : Nat) : Nat :=
  match v with
  | none => d
  | some n => if n = 0 then d else n

/-- `ArtifactBuild.create` (models.py lines 245-263).  The constructor
assigns `state` and `type`, which routes both through the validators; the
new row is appended to the table (`session.add`).  The primary key is
auto-assigned; it is modelled as the current table length.
`time_submitted` is set to `now` and `time_completed` is left unset. -/
def ArtifactBuild.create (tbl : List ArtifactBuild) (event_id : Option Nat)
    (name : String) (type : Nat) (build_id : Option Nat)
    (dep_on : Option Nat) (state : Option Nat)
    (original_nvr : Option String) (rebuilt_nvr : Option String)
    (now : Nat) : Except EnumError (ArtifactBuild × List ArtifactBuild) := do
  let t ← validate_type "type" (.int type)
  let s ← validate_state "state"
    (.int (pyOrNat state ArtifactBuildState.BUILD.value))
  let b : ArtifactBuild :=
    { id := tbl.length
      name := name
      original_nvr := original_nvr
      rebuilt_nvr := rebuilt_nvr
      type := t
      state := s
      state_reason := none
      time_submitted := now
      time_completed := none
      dep_on_id := dep_on
      event_id := event_id
      build_id := build_id
      build_args := none }
  return (b, tbl ++ [b])

/-- `session.query(cls).filter_by(id=...)`-style primary-key lookup: the
first row whose `id` matches. -/
def lookupById (tbl : List ArtifactBuild) (i : Nat) : Option ArtifactBuild :=
  tbl.find? (fun b => b.id = i)

/-- In-place mutation of the row with primary key `i`. -/
def updateById (tbl : List ArtifactBuild) (i : Nat) (b' : ArtifactBuild) :
    List ArtifactBuild :=
  tbl.map (fun b => if b.id = i then b' else b)

/-- `ArtifactBuild.depending_artifact_builds` (models.py lines 281-285):
`ArtifactBuild.query.filter_by(dep_on_id=self.id).all()`. -/
def depending_artifact_builds (tbl : List ArtifactBuild) (i : Nat) :
    List ArtifactBuild :=
  tbl.filter (fun b => b.dep_on_id = some i)

/-- One record emitted through `log.error` / `log.info` by `transition`
(models.py lines 295-301).  The textual formatting of the build's repr is
abstracted; the record keeps the data the format string interpolates:
the severity (error exactly when the new state is FAILED), the build, the
new state and the reason. -/
structure LogEntry where
  is_error : Bool
  build_id : Nat
  state : Nat
  reason : String
deriving DecidableEq, Repr

/-- The log record emitted at the top of one `transition` call. -/
def mkLogEntry (i : Nat) (s : Nat) (reason : String) : LogEntry :=
  ⟨decide (s = ArtifactBuildState.FAILED.value), i, s, reason⟩

/-- Result of a `transition` call: the updated table and the log records
emitted, in order. -/
structure TransResult where
  table : List ArtifactBuild
  logs : List LogEntry
deriving DecidableEq, Repr

/-- The reason string used for cascaded transitions
(models.py lines 320-321). -/
def depFailureReason : String :=
  "Cannot build artifact, because its dependency cannot be built."

/-- `ArtifactBuild.transition` (models.py lines 287-321), fuel-indexed to
make the recursion structural.  One unit of fuel is consumed per nested
`transition` call; the source recursion terminates exactly when the
`dep_on` graph below the build is acyclic, in which case any fuel of at
least the table length is enough (proved below), so the fuelled function
agrees with the source on every input the source terminates on.

Per call, in source order: emit the log record; return if the build is
already in the requested state; otherwise set `state`, `state_reason` and,
for a terminal state, `time_completed`; finally, for FAILED/CANCELED,
recursively transition every build whose `dep_on` is this build.
`transition` is always invoked with a valid `ArtifactBuildState` code (an
invalid one raises in the source's log line before any mutation). -/
def transitionFuel : Nat → List ArtifactBuild → Nat → Nat → String → Nat →
    TransResult
  | 0, tbl, _, _, _, _ => ⟨tbl, []⟩
  | fuel + 1, tbl, i, s, reason, now =>
    let entry := mkLogEntry i s reason
    match lookupById tbl i with
    | none => ⟨tbl, [entry]⟩
    | some b =>
      if b.state = s then ⟨tbl, [entry]⟩
      else
        let b' : ArtifactBuild :=
          { b with
            state := s
            state_reason := some reason
            time_completed :=
              if s = ArtifactBuildState.DONE.value ∨
                 s = ArtifactBuildState.FAILED.value ∨
                 s = ArtifactBuildState.CANCELED.value
              then some now else b.time_completed }
        let tbl1 := updateById tbl i b'
        if s = ArtifactBuildState.FAILED.value ∨
           s = ArtifactBuildState.CANCELED.value then
          ((depending_artifact_builds tbl1 i).map (fun c => c.id)).foldl
            (fun acc cid =>
              let r := transitionFuel fuel acc.table cid s depFailureReason now
              ⟨r.table, acc.logs ++ r.logs⟩)
            ⟨tbl1, [entry]⟩
        else ⟨tbl1, [entry]⟩

/-- Top-level `transition` call on the build with id `i`: the table length
is enough fuel for every acyclic table (proved below). -/
def transition (tbl : List ArtifactBuild) (i : Nat) (s : Nat)
    (reason : String) (now : Nat) : TransResult :=
  transitionFuel tbl.length tbl i s reason now

/-- The effect of one `transition` call on the build's own row
(models.py lines 303-311): unchanged when already in the requested state,
otherwise `state` and `state_reason` are overwritten and `time_completed`
is stamped with the current time exactly when the new state is terminal. -/
def transStep (b : ArtifactBuild) (s : Nat) (reason : String) (now : Nat) :
    ArtifactBuild :=
  if b.state = s then b
  else
    { b with
      state := s
      state_reason := some reason
      time_completed :=
        if s = ArtifactBuildState.DONE.value ∨
           s = ArtifactBuildState.FAILED.value ∨
           s = ArtifactBuildState.CANCELED.value
        then some now else b.time_completed }

/-- A sequence of `transition` calls hitting one build, each given as
(new state, reason, current time), applied left to right. -/
def runTransitions (b : ArtifactBuild) :
    List (Nat × String × Nat) → ArtifactBuild
  | [] => b
  | c :: rest => runTransitions (transStep b c.1 c.2.1 c.2.2) rest

/-- `self.state in [DONE.value, FAILED.value, CANCELED.value]`: the
terminal states (models.py lines 308-310). -/
def isTerminal (s : Nat) : Prop :=
  s = ArtifactBuildState.DONE.value ∨
  s = ArtifactBuildState.FAILED.value ∨
  s = ArtifactBuildState.CANCELED.value

instance (s : Nat) : Decidable (isTerminal s) := by
  unfold isTerminal; infer_instance

/-- `EVENT_TYPES` (models.py lines 43-53): the event classes, keyed here by
their class names, mapped to their stable integer codes. -/
def EVENT_TYPES : List (String × Nat) :=
  [("MBSModuleStateChangeEvent", 0),
   ("GitModuleMetadataChangeEvent", 1),
   ("GitRPMSpecChangeEvent", 2),
   ("TestingEvent", 3),
   ("GitDockerfileChangeEvent", 4),
   ("BodhiUpdateCompleteStableEvent", 5),
   ("KojiTaskStateChangeEvent", 6),
   ("BrewSignRPMEvent", 7),
   ("ErrataAdvisoryRPMsSignedEvent", 8)]

/-- `INVERSE_EVENT_TYPES` (models.py line 55). -/
def INVERSE_EVENT_TYPES : List (Nat × String) :=
  EVENT_TYPES.map (fun kv => (kv.2, kv.1))

/-- One row of the `events` table (models.py lines 105-128).  The
`event_type_id` column holds whatever `Event.create` stored: the integer
code when the argument was a known key of `EVENT_TYPES`, the argument
itself otherwise (the source performs no check on that path). -/
structure Event where
  id : Nat
  message_id : String
  search_key : String
  event_type_id : IntOrStr
  released : Bool
deriving DecidableEq, Repr

/-- `Event.create` (models.py lines 130-141):
`if event_type in EVENT_TYPES: event_type = EVENT_TYPES[event_type]`,
then the row is built from the (possibly translated) value and appended.
An integer is never a key of the dictionary, and an unknown key is left
untouched — no error is raised on either path. -/
def Event.create (tbl : List Event) (message_id : String)
    (search_key : String) (event_type : IntOrStr) (released : Bool) :
    Event × List Event :=
  let et :=
    match event_type with
    | .str k =>
        match EVENT_TYPES.find? (fun kv => kv.1 = k) with
        | some kv => IntOrStr.int kv.2
        | none => event_type
    | .int _ => event_type
  let e : Event := ⟨tbl.length, message_id, search_key, et, released⟩
  (e, tbl ++ [e])

/-- `Event.get` (models.py lines 143-145):
`session.query(cls).filter_by(message_id=message_id).first()`. -/
def Event.get (tbl : List Event) (message_id : String) : Option Event :=
  tbl.find? (fun e => e.message_id = message_id)

/-- `Event.get_or_create` (models.py lines 147-152). -/
def Event.get_or_create (tbl : List Event) (message_id : String)
    (search_key : String) (event_type : IntOrStr) (released : Bool) :
    Event × List Event :=
  match Event.get tbl message_id with
  | some e => (e, tbl)
  | none => Event.create tbl message_id search_key event_type released

/-- `Event.event_type` (models.py lines 158-160):
`INVERSE_EVENT_TYPES[self.event_type_id]`.  A lookup miss is Python's
`KeyError`, carrying the missing key. -/
def Event.event_type (e : Event) : Except IntOrStr String :=
  match e.event_type_id with
  | .int n =>
      match INVERSE_EVENT_TYPES.find? (fun kv => kv.1 = n) with
      | some kv => .ok kv.2
      | none => .error e.event_type_id
  | .str _ => .error e.event_type_id

/-- `Event.has_all_builds_in_state` (models.py lines 176-181), verbatim:

```
return db.session.query(ArtifactBuild).filter_by(
    event_id=self.id).filter(state != state).count() == 0
```

The second filter condition compares the Python argument `state` with
itself (not the column with the argument), so it is the constant `False`. -/
def Event.has_all_builds_in_state (tbl : List ArtifactBuild)
    (event_id : Option Nat) (state : Nat) : Bool :=
  (((tbl.filter (fun b => b.event_id = event_id)).filter
    (fun _b => decide (state ≠ state))).length) = 0

/-! ## The dependency graph of a build table

The cascade claims quantify over the `dep_on` forest.  The graph structure
of a table is its *skeleton*: the per-row pair (primary key, `dep_on_id`).
`transition` only rewrites `state`, `state_reason` and `time_completed`,
so the skeleton is an invariant of the engine and the reachability
relation below can be read off the original table throughout. -/

/-- The graph-relevant projection of a table: per row, its id and its
`dep_on_id`, in table order. -/
def skeleton (tbl : List ArtifactBuild) : List (Nat × Option Nat) :=
  tbl.map (fun b => (b.id, b.dep_on_id))

/-- `depEdge sk p c`: some row has id `c` and `dep_on_id = p`, i.e. the
build `c` directly depends on the build `p` (`c.dep_on == p`). -/
def depEdge (sk : List (Nat × Option Nat)) (p c : Nat) : Prop :=
  (c, some p) ∈ sk

/-- `InSubtree sk root x`: the build `x` is `root` itself or a transitive
dependent of `root` — reachable from `root` by following `dep_on` links
backwards. -/
def InSubtree (sk : List (Nat × Option Nat)) (root x : Nat) : Prop :=
  Relation.ReflTransGen (depEdge sk) root x

/-- Acyclicity witness: a rank function that strictly increases along every
`dep_on` edge (parents rank below children). -/
def RankedAcyclic (sk : List (Nat × Option Nat)) (μ : Nat → Nat) : Prop :=
  ∀ c p, (c, some p) ∈ sk → μ p < μ c

/-- Primary keys are unique, so each id denotes one row and has at most one
`dep_on` parent: the graph is a forest. -/
def UniqueIds (sk : List (Nat × Option Nat)) : Prop :=
  (sk.map Prod.fst).Nodup

theorem depEdge_mu_lt {sk : List (Nat × Option Nat)} {μ : Nat → Nat}
    (hM : RankedAcyclic sk μ) {p c : Nat} (h : depEdge sk p c) :
    μ p < μ c :=
  hM c p h

theorem inSubtree_mu_le {sk : List (Nat × Option Nat)} {μ : Nat → Nat}
    (hM : RankedAcyclic sk μ) {a b : Nat} (h : InSubtree sk a b) :
    a = b ∨ μ a < μ b := by
  induction h with
  | refl => exact Or.inl rfl
  | tail _hab hbc ih =>
    have hlt := depEdge_mu_lt hM hbc
    rcases ih with h1 | h1
    · exact Or.inr (h1 ▸ hlt)
    · exact Or.inr (Nat.lt_trans h1 hlt)

/-- A child of `i` is never an ancestor of `i`: no path from the child back
to `i` exists in an acyclic skeleton. -/
theorem child_not_supertree {sk : List (Nat × Option Nat)} {μ : Nat → Nat}
    (hM : RankedAcyclic sk μ) {i c : Nat} (hc : depEdge sk i c)
    (h : InSubtree sk c i) : False := by
  have h1 := depEdge_mu_lt hM hc
  rcases inSubtree_mu_le hM h with h2 | h2
  · exact absurd (h2 ▸ h1) (Nat.lt_irrefl _)
  · exact absurd (Nat.lt_trans h1 h2) (Nat.lt_irrefl _)

/-- With unique ids, each build has at most one recorded `dep_on_id`. -/
theorem parent_unique {sk : List (Nat × Option Nat)} (hU : UniqueIds sk)
    {x : Nat} {d1 d2 : Option Nat} (h1 : (x, d1) ∈ sk) (h2 : (x, d2) ∈ sk) :
    d1 = d2 := by
  induction sk with
  | nil => cases h1
  | cons hd tl ih =>
    have hU' : (tl.map Prod.fst).Nodup := (List.nodup_cons.mp hU).2
    have hhd : hd.1 ∉ tl.map Prod.fst := (List.nodup_cons.mp hU).1
    rcases List.mem_cons.mp h1 with e1 | m1
    · rcases List.mem_cons.mp h2 with e2 | m2
      · rw [← e1] at e2; exact (Prod.mk.injEq _ _ _ _ ▸ e2).2.symm ▸ rfl
      · exfalso
        apply hhd
        have : x = hd.1 := by rw [← e1]
        rw [← this]
        exact List.mem_map.mpr ⟨(x, d2), m2, rfl⟩
    · rcases List.mem_cons.mp h2 with e2 | m2
      · exfalso
        apply hhd
        have : x = hd.1 := by rw [← e2]
        rw [← this]
        exact List.mem_map.mpr ⟨(x, d1), m1, rfl⟩
      · exact ih hU' m1 m2

/-- In a forest the ancestors of a node are totally ordered: two nodes that
both reach `x` are comparable. -/
theorem subtree_total {sk : List (Nat × Option Nat)} (hU : UniqueIds sk)
    {u v x : Nat} (hu : InSubtree sk u x) (hv : InSubtree sk v x) :
    InSubtree sk u v ∨ InSubtree sk v u := by
  induction hu with
  | refl => exact Or.inr hv
  | tail huy hyx ih =>
    rename_i y x'
    rcases Relation.ReflTransGen.cases_tail hv with e | ⟨z, hvz, hzx⟩
    · subst e
      exact Or.inl (Relation.ReflTransGen.tail huy hyx)
    · have : (x', some y) ∈ sk := hyx
      have hz : (x', some z) ∈ sk := hzx
      have := parent_unique hU this hz
      have hyz : y = z := by injection this
      subst hyz
      exact ih hvz

/-- Subtrees of two distinct children of the same node are disjoint. -/
theorem siblings_disjoint {sk : List (Nat × Option Nat)} {μ : Nat → Nat}
    (hU : UniqueIds sk) (hM : RankedAcyclic sk μ) {i c1 c2 x : Nat}
    (h1 : depEdge sk i c1) (h2 : depEdge sk i c2) (hne : c1 ≠ c2)
    (hx1 : InSubtree sk c1 x) (hx2 : InSubtree sk c2 x) : False := by
  have key : ∀ a b : Nat, depEdge sk i a → depEdge sk i b → a ≠ b →
      InSubtree sk a b → False := by
    intro a b ha hb hab hreach
    rcases Relation.ReflTransGen.cases_tail hreach with e | ⟨y, hay, hyb⟩
    · exact hab e.symm
    · have hyi : some y = some i := parent_unique hU hyb hb
      have : y = i := by injection hyi
      subst this
      exact child_not_supertree hM ha hay
  rcases subtree_total hU hx1 hx2 with h | h
  · exact key c1 c2 h1 h2 hne h
  · exact key c2 c1 h2 h1 (fun e => hne e.symm) h

/-! ## Generic `Forall₂` helpers -/

theorem forall₂_map_self {α : Type _} {R : α → α → Prop} {f : α → α} :
    ∀ {l : List α}, (∀ x ∈ l, R x (f x)) → List.Forall₂ R l (l.map f) := by
  intro l
  induction l with
  | nil => intro _; exact List.Forall₂.nil
  | cons a t ih =>
    intro h
    simp only [List.map_cons]
    exact List.Forall₂.cons (h a (by simp))
      (ih (fun x hx => h x (by simp [hx])))

theorem forall₂_trans_mem {α β γ : Type _} {P : α → β → Prop}
    {Q : β → γ → Prop} {R : α → γ → Prop} :
    ∀ {l₁ : List α} {l₂ : List β} {l₃ : List γ},
      (∀ a b c, a ∈ l₁ → P a b → Q b c → R a c) →
      List.Forall₂ P l₁ l₂ → List.Forall₂ Q l₂ l₃ →
      List.Forall₂ R l₁ l₃ := by
  intro l₁ l₂ l₃ h h12 h23
  induction h12 generalizing l₃ with
  | nil => cases h23; exact List.Forall₂.nil
  | cons hab htl ih =>
    cases h23 with
    | cons hbc htl' =>
      exact List.Forall₂.cons (h _ _ _ (by simp) hab hbc)
        (ih (fun a b c ha => h a b c (by simp [ha])) htl')

theorem forall₂_mem_right {α β : Type _} {P : α → β → Prop} :
    ∀ {l₁ : List α} {l₂ : List β}, List.Forall₂ P l₁ l₂ →
      ∀ {b}, b ∈ l₂ → ∃ a ∈ l₁, P a b := by
  intro l₁ l₂ h
  induction h with
  | nil => intro b hb; cases hb
  | cons hab _htl ih =>
    intro b hb
    rcases List.mem_cons.mp hb with rfl | hb'
    · exact ⟨_, by simp, hab⟩
    · obtain ⟨a, ha, hp⟩ := ih hb'
      exact ⟨a, by simp [ha], hp⟩

/-! ## Facts connecting tables and their skeletons -/

theorem skeleton_mem {tbl : List ArtifactBuild} {b : ArtifactBuild}
    (hb : b ∈ tbl) : (b.id, b.dep_on_id) ∈ skeleton tbl :=
  List.mem_map.mpr ⟨b, hb, rfl⟩

theorem exists_row_of_skeleton {tbl : List ArtifactBuild}
    {sk : List (Nat × Option Nat)} (hskel : skeleton tbl = sk)
    {c : Nat} {d : Option Nat} (h : (c, d) ∈ sk) :
    ∃ row ∈ tbl, row.id = c ∧ row.dep_on_id = d := by
  rw [← hskel] at h
  obtain ⟨row, hrow, heq⟩ := List.mem_map.mp h
  rw [Prod.mk.injEq] at heq
  exact ⟨row, hrow, heq.1, heq.2⟩

theorem row_eq_of_id {tbl : List ArtifactBuild}
    (hU : UniqueIds (skeleton tbl)) {b1 b2 : ArtifactBuild}
    (h1 : b1 ∈ tbl) (h2 : b2 ∈ tbl) (hid : b1.id = b2.id) : b1 = b2 := by
  have hnd : ((skeleton tbl).map Prod.fst).Nodup := hU
  have hrw : (skeleton tbl).map Prod.fst = tbl.map (fun b => b.id) := by
    unfold skeleton
    rw [List.map_map]
    exact List.map_congr_left (fun a _ => rfl)
  rw [hrw] at hnd
  exact List.inj_on_of_nodup_map hnd h1 h2 hid

theorem skeleton_eq_of_forall₂ {R : ArtifactBuild → ArtifactBuild → Prop}
    (hR : ∀ o n, R o n → n.id = o.id ∧ n.dep_on_id = o.dep_on_id) :
    ∀ {t t' : List ArtifactBuild}, List.Forall₂ R t t' →
      skeleton t' = skeleton t := by
  intro t t' h
  induction h with
  | nil => rfl
  | cons hab _htl ih =>
    obtain ⟨h1, h2⟩ := hR _ _ hab
    simp only [skeleton, List.map_cons] at *
    rw [ih, h1, h2]

/-! ## Unfolding lemmas for `transitionFuel` -/

theorem transStep_id (b : ArtifactBuild) (s : Nat) (r : String) (n : Nat) :
    (transStep b s r n).id = b.id := by
  unfold transStep; split <;> rfl

theorem transStep_dep (b : ArtifactBuild) (s : Nat) (r : String) (n : Nat) :
    (transStep b s r n).dep_on_id = b.dep_on_id := by
  unfold transStep; split <;> rfl

theorem transStep_state_of_ne {b : ArtifactBuild} {s : Nat}
    (h : ¬ b.state = s) (r : String) (n : Nat) :
    (transStep b s r n).state = s := by
  unfold transStep; rw [if_neg h]

theorem transitionFuel_none {tbl : List ArtifactBuild} {i : Nat}
    (hfind : lookupById tbl i = none) (fuel s : Nat) (reason : String)
    (now : Nat) :
    transitionFuel (fuel + 1) tbl i s reason now =
      ⟨tbl, [mkLogEntry i s reason]⟩ := by
  simp only [transitionFuel, hfind]

theorem transitionFuel_noop {tbl : List ArtifactBuild} {i : Nat}
    {b0 : ArtifactBuild} (hfind : lookupById tbl i = some b0) {s : Nat}
    (hst : b0.state = s) (fuel : Nat) (reason : String) (now : Nat) :
    transitionFuel (fuel + 1) tbl i s reason now =
      ⟨tbl, [mkLogEntry i s reason]⟩ := by
  simp only [transitionFuel, hfind]
  rw [if_pos hst]

theorem transition_fold_table (fuel s now : Nat) (dR : String) :
    ∀ (l : List Nat) (acc : TransResult),
      (l.foldl (fun acc cid =>
          let r := transitionFuel fuel acc.table cid s dR now
          TransResult.mk r.table (acc.logs ++ r.logs)) acc).table =
      l.foldl (fun t cid => (transitionFuel fuel t cid s dR now).table)
        acc.table := by
  intro l
  induction l with
  | nil => intro acc; rfl
  | cons c rest ih =>
    intro acc
    simp only [List.foldl_cons]
    exact ih _

theorem transitionFuel_cascade {tbl : List ArtifactBuild} {i : Nat}
    {b0 : ArtifactBuild} (hfind : lookupById tbl i = some b0) {s : Nat}
    (hst : ¬ b0.state = s)
    (hs : s = ArtifactBuildState.FAILED.value ∨
          s = ArtifactBuildState.CANCELED.value)
    (fuel : Nat) (reason : String) (now : Nat) :
    (transitionFuel (fuel + 1) tbl i s reason now).table =
      ((depending_artifact_builds
          (updateById tbl i (transStep b0 s reason now)) i).map
        (fun c => c.id)).foldl
        (fun t cid => (transitionFuel fuel t cid s depFailureReason now).table)
        (updateById tbl i (transStep b0 s reason now)) := by
  have hb' : transStep b0 s reason now =
      { b0 with
        state := s
        state_reason := some reason
        time_completed :=
          if s = ArtifactBuildState.DONE.value ∨
             s = ArtifactBuildState.FAILED.value ∨
             s = ArtifactBuildState.CANCELED.value
          then some now else b0.time_completed } := by
    unfold transStep; rw [if_neg hst]
  simp only [transitionFuel, hfind]
  rw [if_neg hst, if_pos hs, ← hb']
  exact transition_fold_table fuel s now depFailureReason _ _

/-! ## The cascade invariant

`CascadeRel sk s root o n` relates a row `o` of the table before a
`transition(root, s, _)` call to the corresponding row `n` afterwards:
the graph fields are untouched; a row in `root`'s subtree ends in state
`s`; a row outside it is completely unchanged.  `CascadeRelMulti`
is the analogous invariant for the fold over a list of cascade roots. -/

@[reducible] def CascadeRel (sk : List (Nat × Option Nat)) (s root : Nat)
    (o n : ArtifactBuild) : Prop :=
  n.id = o.id ∧ n.dep_on_id = o.dep_on_id ∧
  (InSubtree sk root o.id → n.state = s) ∧
  (¬ InSubtree sk root o.id → n = o)

@[reducible] def CascadeRelMulti (sk : List (Nat × Option Nat)) (s : Nat)
    (roots : List Nat) (o n : ArtifactBuild) : Prop :=
  n.id = o.id ∧ n.dep_on_id = o.dep_on_id ∧
  ((∃ c ∈ roots, InSubtree sk c o.id) → n.state = s) ∧
  ((¬ ∃ c ∈ roots, InSubtree sk c o.id) → n = o)

theorem cascade_fold_lemma
    (sk0 : List (Nat × Option Nat)) (μ : Nat → Nat) (s now fuel : Nat)
    (hU : UniqueIds sk0) (hM : RankedAcyclic sk0 μ)
    (IH : ∀ (tbl : List ArtifactBuild) (i : Nat),
      skeleton tbl = sk0 → (∃ b ∈ tbl, b.id = i) →
      (∀ x ∈ tbl, InSubtree sk0 i x.id → x.state ≠ s) →
      sk0.length - μ i ≤ fuel →
      List.Forall₂ (CascadeRel sk0 s i) tbl
        (transitionFuel fuel tbl i s depFailureReason now).table)
    (i : Nat) :
    ∀ (l : List Nat) (tcur : List ArtifactBuild),
      skeleton tcur = sk0 → l.Nodup →
      (∀ c ∈ l, depEdge sk0 i c) →
      (∀ c ∈ l, sk0.length - μ c ≤ fuel) →
      (∀ x ∈ tcur, (∃ c ∈ l, InSubtree sk0 c x.id) → x.state ≠ s) →
      List.Forall₂ (CascadeRelMulti sk0 s l) tcur
        (l.foldl (fun t cid =>
          (transitionFuel fuel t cid s depFailureReason now).table) tcur) := by
  intro l
  induction l with
  | nil =>
    intro tcur _ _ _ _ _
    simp only [List.foldl_nil]
    apply List.forall₂_same.mpr
    intro x _
    exact ⟨rfl, rfl, fun ⟨c, hc, _⟩ => absurd hc (List.not_mem_nil c),
      fun _ => rfl⟩
  | cons c rest ihl =>
    intro tcur hskel hnd hedge hfuel hpre
    simp only [List.foldl_cons]
    have hcEdge : depEdge sk0 i c := hedge c (List.mem_cons_self c rest)
    obtain ⟨row, hrow, hrowid, _⟩ := exists_row_of_skeleton hskel hcEdge
    have F1 : List.Forall₂ (CascadeRel sk0 s c) tcur
        (transitionFuel fuel tcur c s depFailureReason now).table :=
      IH tcur c hskel ⟨row, hrow, hrowid⟩
        (fun x hx hsub => hpre x hx ⟨c, List.mem_cons_self c rest, hsub⟩)
        (hfuel c (List.mem_cons_self c rest))
    have skel' :
        skeleton (transitionFuel fuel tcur c s depFailureReason now).table
          = sk0 :=
      (skeleton_eq_of_forall₂ (fun o n r => ⟨r.1, r.2.1⟩) F1).trans hskel
    have hcnotin : c ∉ rest := (List.nodup_cons.mp hnd).1
    have hpre' : ∀ x ∈ (transitionFuel fuel tcur c s depFailureReason now).table,
        (∃ c' ∈ rest, InSubtree sk0 c' x.id) → x.state ≠ s := by
      rintro x hx ⟨c', hc', hsub⟩
      obtain ⟨o, ho, hP⟩ := forall₂_mem_right F1 hx
      obtain ⟨hid, -, -, hPu⟩ := hP
      have hsub_o : InSubtree sk0 c' o.id := by rw [← hid]; exact hsub
      have hnc : ¬ InSubtree sk0 c o.id := by
        intro hcon
        exact siblings_disjoint hU hM hcEdge
          (hedge c' (List.mem_cons_of_mem c hc'))
          (fun e => hcnotin (e ▸ hc')) hcon hsub_o
      rw [hPu hnc]
      exact hpre o ho ⟨c', List.mem_cons_of_mem c hc', hsub_o⟩
    have F2 := ihl (transitionFuel fuel tcur c s depFailureReason now).table
      skel' (List.nodup_cons.mp hnd).2
      (fun c' hc' => hedge c' (List.mem_cons_of_mem c hc'))
      (fun c' hc' => hfuel c' (List.mem_cons_of_mem c hc'))
      hpre'
    refine forall₂_trans_mem ?_ F1 F2
    intro o m n _ho hP hQ
    obtain ⟨hPid, hPdep, hPs, hPu⟩ := hP
    obtain ⟨hQid, hQdep, hQs, hQu⟩ := hQ
    refine ⟨hQid.trans hPid, hQdep.trans hPdep, ?_, ?_⟩
    · rintro ⟨c0, hc0, hsub⟩
      rcases List.mem_cons.mp hc0 with rfl | hc0'
      · have hms : m.state = s := hPs hsub
        by_cases hq : ∃ c' ∈ rest, InSubtree sk0 c' m.id
        · exact hQs hq
        · rw [hQu hq]; exact hms
      · exact hQs ⟨c0, hc0', by rw [hPid]; exact hsub⟩
    · intro hno
      have h1 : ¬ InSubtree sk0 c o.id := fun h =>
        hno ⟨c, List.mem_cons_self c rest, h⟩
      have hm : m = o := hPu h1
      have h2 : ¬ ∃ c' ∈ rest, InSubtree sk0 c' m.id := by
        rintro ⟨c', hc', hsub⟩
        rw [hPid] at hsub
        exact hno ⟨c', List.mem_cons_of_mem c hc', hsub⟩
      rw [hQu h2, hm]

theorem transition_cascade_master
    (sk0 : List (Nat × Option Nat)) (μ : Nat → Nat) (s now : Nat)
    (hU : UniqueIds sk0) (hM : RankedAcyclic sk0 μ)
    (hB : ∀ cd ∈ sk0, μ cd.1 < sk0.length)
    (hs : s = ArtifactBuildState.FAILED.value ∨
          s = ArtifactBuildState.CANCELED.value) :
    ∀ (fuel : Nat) (tbl : List ArtifactBuild) (i : Nat) (reason : String),
      skeleton tbl = sk0 →
      (∃ b ∈ tbl, b.id = i) →
      (∀ x ∈ tbl, InSubtree sk0 i x.id → x.state ≠ s) →
      sk0.length - μ i ≤ fuel →
      List.Forall₂ (CascadeRel sk0 s i) tbl
        (transitionFuel fuel tbl i s reason now).table := by
  intro fuel
  induction fuel with
  | zero =>
    intro tbl i reason hskel hex _hpre hfuel
    exfalso
    obtain ⟨b, hb, hbid⟩ := hex
    have hmem : (i, b.dep_on_id) ∈ sk0 := by
      have := skeleton_mem hb
      rw [hskel, hbid] at this
      exact this
    have hlt := hB _ hmem
    simp only at hlt
    omega
  | succ fuel ih =>
    intro tbl i reason hskel hex hpre hfuel
    obtain ⟨b, hbmem, hbid⟩ := hex
    cases hfind : lookupById tbl i with
    | none =>
      exfalso
      have hfind' : tbl.find? (fun b => b.id = i) = none := hfind
      have := List.find?_eq_none.mp hfind' b hbmem
      simp [hbid] at this
    | some b0 =>
      have hfind' : tbl.find? (fun b => b.id = i) = some b0 := hfind
      have hb0mem : b0 ∈ tbl := List.mem_of_find?_eq_some hfind'
      have hb0id : b0.id = i := by
        have hp := List.find?_some hfind'
        simpa using hp
      have hb0ne : ¬ b0.state = s := by
        apply hpre b0 hb0mem
        rw [hb0id]
        exact Relation.ReflTransGen.refl
      have hUtbl : UniqueIds (skeleton tbl) := by rw [hskel]; exact hU
      rw [transitionFuel_cascade hfind hb0ne hs]
      set b' := transStep b0 s reason now with hbDef
      set tbl1 := updateById tbl i b' with htbl1
      set children := (depending_artifact_builds tbl1 i).map (fun c => c.id)
        with hch
      have hb'id : b'.id = i := by rw [hbDef, transStep_id, hb0id]
      have hb'dep : b'.dep_on_id = b0.dep_on_id := by
        rw [hbDef, transStep_dep]
      have F0 : List.Forall₂ (fun o n => n = if o.id = i then b' else o)
          tbl tbl1 := by
        rw [htbl1]
        unfold updateById
        exact forall₂_map_self (fun x _ => rfl)
      have skel1 : skeleton tbl1 = sk0 := by
        rw [← hskel, htbl1]
        unfold skeleton updateById
        rw [List.map_map]
        apply List.map_congr_left
        intro a ha
        simp only [Function.comp]
        by_cases hai : a.id = i
        · rw [if_pos hai]
          have ha0 : a = b0 :=
            row_eq_of_id hUtbl ha hb0mem (hai.trans hb0id.symm)
          rw [hb'id, hb'dep, hai, ha0]
        · rw [if_neg hai]
      have hUtbl1 : (tbl1.map (fun b => b.id)).Nodup := by
        have hrw : tbl1.map (fun b => b.id) = (skeleton tbl1).map Prod.fst := by
          unfold skeleton
          rw [List.map_map]
          exact (List.map_congr_left (fun a _ => rfl)).symm
        rw [hrw, skel1]
        exact hU
      have hchNodup : children.Nodup := by
        rw [hch]
        unfold depending_artifact_builds
        exact List.Nodup.sublist
          (List.Sublist.map (fun b => b.id) (List.filter_sublist tbl1)) hUtbl1
      have hchEdge : ∀ c ∈ children, depEdge sk0 i c := by
        intro c hc
        rw [hch] at hc
        obtain ⟨r, hr, hrid⟩ := List.mem_map.mp hc
        unfold depending_artifact_builds at hr
        have hr' := List.mem_filter.mp hr
        have hdep : r.dep_on_id = some i := of_decide_eq_true hr'.2
        have hmem := skeleton_mem hr'.1
        rw [skel1, hrid, hdep] at hmem
        exact hmem
      have hchCover : ∀ c, depEdge sk0 i c → c ∈ children := by
        intro c hEdge
        obtain ⟨r, hr, hrid, hrdep⟩ := exists_row_of_skeleton skel1 hEdge
        rw [hch]
        refine List.mem_map.mpr ⟨r, ?_, hrid⟩
        unfold depending_artifact_builds
        refine List.mem_filter.mpr ⟨hr, ?_⟩
        simp [hrdep]
      have hchFuel : ∀ c ∈ children, sk0.length - μ c ≤ fuel := by
        intro c hc
        have h1 : μ i < μ c := depEdge_mu_lt hM (hchEdge c hc)
        omega
      have hchPre : ∀ x ∈ tbl1,
          (∃ c ∈ children, InSubtree sk0 c x.id) → x.state ≠ s := by
        rintro x hx ⟨c, hc, hsub⟩
        rw [htbl1] at hx
        unfold updateById at hx
        obtain ⟨o, ho, hoe⟩ := List.mem_map.mp hx
        by_cases hoi : o.id = i
        · exfalso
          rw [if_pos hoi] at hoe
          have hxi : x.id = i := by rw [← hoe, hb'id]
          rw [hxi] at hsub
          exact child_not_supertree hM (hchEdge c hc) hsub
        · rw [if_neg hoi] at hoe
          subst hoe
          have hup : InSubtree sk0 i o.id :=
            Relation.ReflTransGen.head (hchEdge c hc) hsub
          exact hpre o ho hup
      have Ffold := cascade_fold_lemma sk0 μ s now fuel hU hM
        (fun t i' h1 h2 h3 h4 => ih t i' depFailureReason h1 h2 h3 h4)
        i children tbl1 skel1 hchNodup hchEdge hchFuel hchPre
      refine forall₂_trans_mem ?_ F0 Ffold
      intro o m n ho hP hQ
      obtain ⟨hQid, hQdep, hQs, hQu⟩ := hQ
      by_cases hoi : o.id = i
      · have ho0 : o = b0 :=
          row_eq_of_id hUtbl ho hb0mem (hoi.trans hb0id.symm)
        have hm : m = b' := by rw [hP, if_pos hoi]
        have hmid : m.id = i := by rw [hm, hb'id]
        have hnotdown : ¬ ∃ c ∈ children, InSubtree sk0 c m.id := by
          rintro ⟨c, hc, hsub⟩
          rw [hmid] at hsub
          exact child_not_supertree hM (hchEdge c hc) hsub
        have hn : n = b' := by rw [hQu hnotdown, hm]
        refine ⟨?_, ?_, ?_, ?_⟩
        · rw [hn, hb'id, hoi]
        · rw [hn, hb'dep, ho0]
        · intro _
          rw [hn, hbDef]
          exact transStep_state_of_ne hb0ne reason now
        · intro hno
          refine absurd ?_ hno
          rw [hoi]
          exact Relation.ReflTransGen.refl
      · have hm : m = o := by rw [hP, if_neg hoi]
        subst hm
        refine ⟨hQid, hQdep, ?_, ?_⟩
        · intro hsub
          rcases Relation.ReflTransGen.cases_head hsub with he | ⟨c, hEdge, hsub'⟩
          · exact absurd he.symm hoi
          · exact hQs ⟨c, hchCover c hEdge, hsub'⟩
        · intro hno
          apply hQu
          rintro ⟨c, hc, hsub⟩
          exact hno (Relation.ReflTransGen.head (hchEdge c hc) hsub)

/-! ## Concrete fixtures used by witnesses and counterexamples -/

def witnessRowA : ArtifactBuild :=
  { id := 0, name := "a", original_nvr := none, rebuilt_nvr := none,
    type := 0, state := 0, state_reason := none, time_submitted := 0,
    time_completed := none, dep_on_id := none, event_id := some 1,
    build_id := none, build_args := none }

def witnessRowB : ArtifactBuild :=
  { witnessRowA with id := 1, name := "b", dep_on_id := some 0 }

def witnessTbl : List ArtifactBuild := [witnessRowA, witnessRowB]

/-! ## Claim C1 -/

/-- Claim C1 (amended): on an acyclic `dep_on` forest, transitioning a
build to FAILED or CANCELED when no build of its subtree already has the
target state gives every build of the subtree (the build itself and all
its transitive dependents) state `s`, and leaves every build outside the
subtree — in particular every ancestor and every unrelated build —
completely unchanged.  Acyclicity is witnessed by a rank `μ` increasing
along `dep_on` edges and bounded by the table size. -/
theorem cascade_completeness
    (tbl : List ArtifactBuild) (μ : Nat → Nat)
    (hU : UniqueIds (skeleton tbl))
    (hM : RankedAcyclic (skeleton tbl) μ)
    (hB : ∀ b ∈ tbl, μ b.id < tbl.length)
    (b : ArtifactBuild) (hb : b ∈ tbl) (s : Nat)
    (hs : s = ArtifactBuildState.FAILED.value ∨
          s = ArtifactBuildState.CANCELED.value)
    (hpre : ∀ x ∈ tbl, InSubtree (skeleton tbl) b.id x.id → x.state ≠ s)
    (reason : String) (now : Nat) :
    List.Forall₂ (fun o n =>
        (InSubtree (skeleton tbl) b.id o.id → n.state = s) ∧
        (¬ InSubtree (skeleton tbl) b.id o.id → n = o))
      tbl (transition tbl b.id s reason now).table := by
  have hlen : (skeleton tbl).length = tbl.length := by
    simp [skeleton]
  have hB' : ∀ cd ∈ skeleton tbl, μ cd.1 < (skeleton tbl).length := by
    intro cd hcd
    obtain ⟨row, hrow, hrid, _⟩ := exists_row_of_skeleton rfl hcd
    have hlt := hB row hrow
    rw [hrid] at hlt
    omega
  have hfuel : (skeleton tbl).length - μ b.id ≤ tbl.length := by omega
  have hmain := transition_cascade_master (skeleton tbl) μ s now hU hM hB' hs
    tbl.length tbl b.id reason rfl ⟨b, hb, rfl⟩ hpre hfuel
  exact List.Forall₂.imp (fun {_o _n} r => ⟨r.2.2.1, r.2.2.2⟩) hmain

theorem cascade_completeness_witness :
    List.Forall₂ (fun o n =>
        (InSubtree (skeleton witnessTbl) witnessRowA.id o.id →
          n.state = ArtifactBuildState.FAILED.value) ∧
        (¬ InSubtree (skeleton witnessTbl) witnessRowA.id o.id → n = o))
      witnessTbl
      (transition witnessTbl witnessRowA.id ArtifactBuildState.FAILED.value
        "r" 7).table :=
  cascade_completeness witnessTbl (fun k => k)
    (by unfold UniqueIds; decide)
    (by
      intro c p h
      simp only [skeleton, witnessTbl, witnessRowA, witnessRowB,
        List.map_cons, List.map_nil, List.mem_cons, List.not_mem_nil,
        or_false, Prod.mk.injEq] at h
      rcases h with ⟨-, h⟩ | ⟨h1, h2⟩
      · exact absurd h (by simp)
      · rw [Option.some.injEq] at h2
        show p < c
        omega)
    (by
      intro x hx
      rcases List.mem_cons.mp hx with rfl | hx'
      · decide
      · rcases List.mem_cons.mp hx' with rfl | hx''
        · decide
        · exact absurd hx'' (List.not_mem_nil x))
    witnessRowA (List.mem_cons_self _ _) ArtifactBuildState.FAILED.value
    (Or.inl rfl)
    (by
      intro x hx _
      rcases List.mem_cons.mp hx with rfl | hx'
      · decide
      · rcases List.mem_cons.mp hx' with rfl | hx''
        · decide
        · exact absurd hx'' (List.not_mem_nil x))
    "r" 7

def cexRow0 : ArtifactBuild := { witnessRowA with state := 2 }

def cexRow1 : ArtifactBuild := { witnessRowA with id := 1, dep_on_id := some 0 }

def cexTbl : List ArtifactBuild := [cexRow0, cexRow1]

/-- Claim C1 counterexample: in the two-build forest where build 1 depends
on build 0 and build 0 is *already* FAILED, `transition(0, FAILED, _)`
short-circuits at the no-op guard and the table is returned unchanged, so
the transitive descendant 1 keeps state BUILD instead of reaching FAILED —
the claim as stated (for every acyclic forest, every transitive descendant
ends in state `s`) is false. -/
theorem C1_counterexample :
    InSubtree (skeleton cexTbl) 0 1 ∧
    (transition cexTbl 0 ArtifactBuildState.FAILED.value "r" 7).table =
      cexTbl ∧
    cexRow1 ∈ cexTbl ∧ cexRow1.id = 1 ∧
    cexRow1.state ≠ ArtifactBuildState.FAILED.value := by
  refine ⟨Relation.ReflTransGen.single ?_, by decide, by decide, by decide,
    by decide⟩
  show (1, some 0) ∈ skeleton cexTbl
  decide

/-! ## Claims C2 and C7: the no-op guard -/

theorem transition_noop_eq {tbl : List ArtifactBuild} {i : Nat}
    {b : ArtifactBuild} (hfind : lookupById tbl i = some b) {s : Nat}
    (hst : b.state = s) (reason : String) (now : Nat) :
    transition tbl i s reason now = ⟨tbl, [mkLogEntry i s reason]⟩ := by
  obtain ⟨k, hk⟩ : ∃ k, tbl.length = k + 1 := by
    cases tbl with
    | nil => simp [lookupById] at hfind
    | cons a t => exact ⟨t.length, rfl⟩
  unfold transition
  rw [hk]
  exact transitionFuel_noop hfind hst k reason now

/-- Claim C2: transitioning a build to the state it already has leaves the
whole table unchanged — in particular its own `state_reason` and
`time_completed` and every descendant's state — and performs no cascade
call: the single emitted log record is the only observable effect. -/
theorem noop_retransition_frame
    (tbl : List ArtifactBuild) (i : Nat) (b : ArtifactBuild) (s : Nat)
    (hfind : lookupById tbl i = some b) (hst : b.state = s)
    (reason : String) (now : Nat) :
    (transition tbl i s reason now).table = tbl ∧
    (transition tbl i s reason now).logs.length = 1 := by
  rw [transition_noop_eq hfind hst reason now]
  exact ⟨rfl, rfl⟩

theorem noop_retransition_frame_witness :
    (transition [witnessRowA] 0 0 "again" 5).table = [witnessRowA] ∧
    (transition [witnessRowA] 0 0 "again" 5).logs.length = 1 :=
  noop_retransition_frame [witnessRowA] 0 witnessRowA 0 (by decide) rfl
    "again" 5

/-- Claim C7 (amended): a repeated report of the build's current state
short-circuits before any state, reason or `time_completed` write and
before any cascade — but only *after* the logging step, which precedes the
guard in the source, so exactly one log record (error-level exactly for
FAILED) is still emitted by the call. -/
theorem noop_retransition_logs
    (tbl : List ArtifactBuild) (i : Nat) (b : ArtifactBuild) (s : Nat)
    (hfind : lookupById tbl i = some b) (hst : b.state = s)
    (reason : String) (now : Nat) :
    transition tbl i s reason now =
      ⟨tbl, [⟨decide (s = ArtifactBuildState.FAILED.value), i, s, reason⟩]⟩ :=
  transition_noop_eq hfind hst reason now

theorem noop_retransition_logs_witness :
    transition [witnessRowB] 1 0 "repeat" 4 =
      ⟨[witnessRowB], [⟨false, 1, 0, "repeat"⟩]⟩ :=
  noop_retransition_logs [witnessRowB] 1 witnessRowB 0 (by decide) rfl
    "repeat" 4

/-- Claim C7 counterexample: the claim says a same-state re-transition
produces *no* log record, but the source logs before the guard: the call
emits exactly one record. -/
theorem C7_counterexample :
    (transition [witnessRowA] 0 0 "again" 5).logs ≠ [] ∧
    (transition [witnessRowA] 0 0 "again" 5).logs =
      [⟨false, 0, 0, "again"⟩] := by
  exact ⟨by decide, by decide⟩

/-! ## Claim C3: the A ← B ← C chain -/

def chainA : ArtifactBuild := { witnessRowA with id := 1, name := "A" }

def chainB : ArtifactBuild :=
  { witnessRowA with id := 2, name := "B", dep_on_id := some 1 }

def chainC : ArtifactBuild :=
  { witnessRowA with id := 3, name := "C", dep_on_id := some 2 }

def chainTbl : List ArtifactBuild := [chainA, chainB, chainC]

def chainAfterDone : List ArtifactBuild :=
  (transition chainTbl 3 ArtifactBuildState.DONE.value "done" 5).table

def chainFinal : List ArtifactBuild :=
  (transition chainAfterDone 1 ArtifactBuildState.FAILED.value
    "upstream error" 9).table

/-- Claim C3 counterexample: with C.dep_on = B, B.dep_on = A, all in BUILD,
after transitioning C to DONE and then A to FAILED, C does *not* remain
DONE: the cascade from A reaches B and then C, and since C's state DONE
differs from FAILED the no-op guard does not stop it, so C ends FAILED. -/
theorem C3_counterexample :
    (lookupById chainFinal 3).map (fun b => b.state) =
      some ArtifactBuildState.FAILED.value ∧
    ArtifactBuildState.FAILED.value ≠ ArtifactBuildState.DONE.value := by
  exact ⟨by decide, by decide⟩

/-- Claim C3 (amended): in the chain A ← B ← C all starting in BUILD,
transitioning C to DONE and then A to FAILED ends with A, B *and* C all
FAILED — B and C with the cascade reason — because C is a transitive
dependent of A and its DONE state differs from FAILED, so the cascade
rewrites it (its `time_completed` is also re-stamped). -/
theorem chain_done_then_failed_endstate :
    chainFinal.map (fun b => (b.id, b.state, b.state_reason, b.time_completed)) =
      [(1, ArtifactBuildState.FAILED.value, some "upstream error", some 9),
       (2, ArtifactBuildState.FAILED.value, some depFailureReason, some 9),
       (3, ArtifactBuildState.FAILED.value, some depFailureReason, some 9)] := by
  decide

/-! ## Claim C4: `has_all_builds_in_state` -/

/-- Claim C4 (code bug): `has_all_builds_in_state` filters on
`state != state` — the Python argument compared with itself, not the
column — so the count is always 0 and the method returns True for *every*
event and state, contradicting its own docstring ("Returns True when all
builds are in the given state").  At the failing input, an event owning a
single build in state BUILD is reported as having all builds FAILED. -/
theorem has_all_builds_in_state_constant_true :
    (∀ (tbl : List ArtifactBuild) (eid : Option Nat) (st : Nat),
      Event.has_all_builds_in_state tbl eid st = true) ∧
    Event.has_all_builds_in_state [witnessRowA] (some 1)
      ArtifactBuildState.FAILED.value = true ∧
    witnessRowA.event_id = some 1 ∧
    witnessRowA.state ≠ ArtifactBuildState.FAILED.value := by
  refine ⟨?_, by decide, by decide, by decide⟩
  intro tbl eid st
  unfold Event.has_all_builds_in_state
  simp

/-! ## Claim C5: the `time_completed` lifecycle

The per-row effect of a `transition` call is `transStep`; the bridge lemma
below ties it to the table-level engine for non-cascading states, and every
cascaded call applies the same row update.  The trace theorem then
characterises `time_completed` over an arbitrary sequence of calls. -/

theorem transition_row_effect {tbl : List ArtifactBuild} {i : Nat}
    {b : ArtifactBuild} (hU : UniqueIds (skeleton tbl))
    (hfind : lookupById tbl i = some b) {s : Nat}
    (hs : ¬ (s = ArtifactBuildState.FAILED.value ∨
             s = ArtifactBuildState.CANCELED.value))
    (reason : String) (now : Nat) :
    (transition tbl i s reason now).table =
      updateById tbl i (transStep b s reason now) := by
  have hfind' : tbl.find? (fun x => x.id = i) = some b := hfind
  have hbmem : b ∈ tbl := List.mem_of_find?_eq_some hfind'
  have hbid : b.id = i := by
    have hp := List.find?_some hfind'
    simpa using hp
  by_cases hst : b.state = s
  · rw [transition_noop_eq hfind hst reason now]
    have htriv : transStep b s reason now = b := by
      unfold transStep; rw [if_pos hst]
    rw [htriv]
    unfold updateById
    have : ∀ a ∈ tbl, (if a.id = i then b else a) = a := by
      intro a ha
      by_cases hai : a.id = i
      · rw [if_pos hai]
        exact (row_eq_of_id hU hbmem ha (hbid.trans hai.symm))
      · rw [if_neg hai]
    rw [List.map_congr_left this]
    simp
  · obtain ⟨k, hk⟩ : ∃ k, tbl.length = k + 1 := by
      cases tbl with
      | nil => simp [lookupById] at hfind
      | cons a t => exact ⟨t.length, rfl⟩
    unfold transition
    rw [hk]
    have hb' : transStep b s reason now =
        { b with
          state := s
          state_reason := some reason
          time_completed :=
            if s = ArtifactBuildState.DONE.value ∨
               s = ArtifactBuildState.FAILED.value ∨
               s = ArtifactBuildState.CANCELED.value
            then some now else b.time_completed } := by
      unfold transStep; rw [if_neg hst]
    simp only [transitionFuel, hfind]
    rw [if_neg hst, if_neg hs, ← hb']

theorem transStep_tc_ne_none {b : ArtifactBuild} {s : Nat} {r : String}
    {n : Nat} (h : b.time_completed ≠ none) :
    (transStep b s r n).time_completed ≠ none := by
  unfold transStep
  split
  · exact h
  · simp only
    split
    · simp
    · exact h

theorem tc_persists :
    ∀ (cmds : List (Nat × String × Nat)) (b : ArtifactBuild),
      b.time_completed ≠ none →
      (runTransitions b cmds).time_completed ≠ none := by
  intro cmds
  induction cmds with
  | nil => intro b h; exact h
  | cons c rest ih =>
    intro b h
    exact ih _ (transStep_tc_ne_none h)

/-- Claim C5 (amended): for a build starting in a non-terminal state with
`time_completed` unset — which is how `create` without an explicit state
initialises it — after any sequence of `transition` calls,
`time_completed` is set if and only if some prefix of the sequence has
brought the build into a terminal state.  It is stamped by every
transition that enters a terminal state from a *different* state (so a
later DONE → FAILED transition re-stamps it), it is never cleared (a
later transition back to BUILD keeps the old stamp while the state is
non-terminal), and no-op repeats leave it untouched. -/
theorem time_completed_lifecycle
    (b0 : ArtifactBuild) (h0state : ¬ isTerminal b0.state)
    (h0tc : b0.time_completed = none) (cmds : List (Nat × String × Nat)) :
    (runTransitions b0 cmds).time_completed ≠ none ↔
      ∃ p q, cmds = p ++ q ∧ isTerminal (runTransitions b0 p).state := by
  induction cmds generalizing b0 with
  | nil =>
    simp only [runTransitions]
    constructor
    · intro h; exact absurd h0tc h
    · rintro ⟨p, q, hpq, hterm⟩
      have hp : p = [] := (List.append_eq_nil.mp hpq.symm).1
      rw [hp] at hterm
      exact absurd hterm h0state
  | cons c rest ih =>
    by_cases hg : b0.state = c.1
    · have hid : transStep b0 c.1 c.2.1 c.2.2 = b0 := by
        unfold transStep; rw [if_pos hg]
      simp only [runTransitions, hid]
      rw [ih b0 h0state h0tc]
      constructor
      · rintro ⟨p, q, hpq, hterm⟩
        refine ⟨c :: p, q, by rw [List.cons_append, hpq], ?_⟩
        simpa [runTransitions, hid] using hterm
      · rintro ⟨p, q, hpq, hterm⟩
        cases p with
        | nil =>
          exact absurd (by simpa [runTransitions] using hterm) h0state
        | cons c' p' =>
          rw [List.cons_append] at hpq
          injection hpq with h1 h2
          subst h1
          refine ⟨p', q, h2, ?_⟩
          simpa [runTransitions, hid] using hterm
    · by_cases ht : isTerminal c.1
      · have hstep_state : (transStep b0 c.1 c.2.1 c.2.2).state = c.1 :=
          transStep_state_of_ne hg c.2.1 c.2.2
        have hstep_tc :
            (transStep b0 c.1 c.2.1 c.2.2).time_completed = some c.2.2 := by
          unfold transStep
          rw [if_neg hg]
          simp only
          unfold isTerminal at ht
          rw [if_pos ht]
        constructor
        · intro _
          refine ⟨[c], rest, rfl, ?_⟩
          show isTerminal (transStep b0 c.1 c.2.1 c.2.2).state
          rw [hstep_state]
          exact ht
        · intro _
          show (runTransitions (transStep b0 c.1 c.2.1 c.2.2) rest).time_completed ≠ none
          apply tc_persists
          rw [hstep_tc]
          simp
      · have hstep_state : ¬ isTerminal (transStep b0 c.1 c.2.1 c.2.2).state := by
          rw [transStep_state_of_ne hg]; exact ht
        have hstep_tc : (transStep b0 c.1 c.2.1 c.2.2).time_completed = none := by
          unfold transStep
          rw [if_neg hg]
          simp only
          unfold isTerminal at ht
          rw [if_neg ht]
          exact h0tc
        simp only [runTransitions]
        rw [ih _ hstep_state hstep_tc]
        constructor
        · rintro ⟨p, q, hpq, hterm⟩
          refine ⟨c :: p, q, by rw [List.cons_append, hpq], ?_⟩
          simpa [runTransitions] using hterm
        · rintro ⟨p, q, hpq, hterm⟩
          cases p with
          | nil =>
            exact absurd (by simpa [runTransitions] using hterm) h0state
          | cons c' p' =>
            rw [List.cons_append] at hpq
            injection hpq with h1 h2
            subst h1
            refine ⟨p', q, h2, ?_⟩
            simpa [runTransitions] using hterm

theorem time_completed_lifecycle_witness :
    (runTransitions witnessRowA
      [(ArtifactBuildState.FAILED.value, "bad", 5)]).time_completed ≠ none :=
  (time_completed_lifecycle witnessRowA (by decide) rfl
    [(ArtifactBuildState.FAILED.value, "bad", 5)]).mpr
    ⟨[(ArtifactBuildState.FAILED.value, "bad", 5)], [], rfl, by decide⟩

def doneCreated : Except EnumError (ArtifactBuild × List ArtifactBuild) :=
  ArtifactBuild.create [] (some 1) "n" 0 none none
    (some ArtifactBuildState.DONE.value) none none 3

def tcTbl1 : List ArtifactBuild :=
  (transition [witnessRowA] 0 ArtifactBuildState.DONE.value "ok" 5).table

def tcTbl2 : List ArtifactBuild :=
  (transition tcTbl1 0 ArtifactBuildState.FAILED.value "bad" 9).table

def tcTbl3 : List ArtifactBuild :=
  (transition tcTbl2 0 ArtifactBuildState.BUILD.value "retry" 11).table

/-- Claim C5 counterexample: (a) a build created directly in the terminal
state DONE has `time_completed` unset — `create` never stamps it — so
"time_completed non-null iff state terminal" fails; (b) a DONE build
transitioned to FAILED (two different terminal states) gets its stamp
*overwritten* (5 becomes 9), so "written exactly once, never overwritten"
fails; (c) a later transition back to BUILD keeps the stamp while the
state is non-terminal, failing the iff in the other direction. -/
theorem C5_counterexample :
    (doneCreated.map (fun p => (p.1.state, p.1.time_completed)) =
      Except.ok (ArtifactBuildState.DONE.value, none)) ∧
    ((lookupById tcTbl1 0).map (fun b => b.time_completed) =
      some (some 5)) ∧
    ((lookupById tcTbl2 0).map (fun b => b.time_completed) =
      some (some 9)) ∧
    ((lookupById tcTbl3 0).map (fun b => (b.state, b.time_completed)) =
      some (ArtifactBuildState.BUILD.value, some 9)) := by
  exact ⟨by rfl, by decide, by decide, by decide⟩

/-! ## Claim C6: idempotent get-or-create -/

theorem Event.create_parts (tbl : List Event) (mid sk : String)
    (et : IntOrStr) (rel : Bool) :
    (Event.create tbl mid sk et rel).2 =
      tbl ++ [(Event.create tbl mid sk et rel).1] ∧
    (Event.create tbl mid sk et rel).1.message_id = mid :=
  ⟨rfl, rfl⟩

/-- Claim C6: calling `get_or_create` twice in sequence with the same
`message_id` returns the same Event both times, regardless of the other
arguments; the second call changes nothing, and when the store had no row
with that `message_id` the pair of calls creates exactly one such row. -/
theorem get_or_create_idempotent
    (tbl : List Event) (message_id sk1 sk2 : String) (et1 et2 : IntOrStr)
    (rel1 rel2 : Bool) (e1 e2 : Event) (t1 t2 : List Event)
    (h1 : Event.get_or_create tbl message_id sk1 et1 rel1 = (e1, t1))
    (h2 : Event.get_or_create t1 message_id sk2 et2 rel2 = (e2, t2)) :
    e2 = e1 ∧ t2 = t1 ∧
    (Event.get tbl message_id = none →
      (t1.filter (fun e => e.message_id = message_id)).length = 1 ∧
      t1.length = tbl.length + 1) := by
  cases hget : Event.get tbl message_id with
  | some e =>
    simp only [Event.get_or_create, hget] at h1
    rw [Prod.mk.injEq] at h1
    obtain ⟨he1, ht1⟩ := h1
    subst he1; subst ht1
    simp only [Event.get_or_create, hget] at h2
    rw [Prod.mk.injEq] at h2
    obtain ⟨he2, ht2⟩ := h2
    refine ⟨he2.symm, ht2.symm, fun hn => ?_⟩
    simp [hget] at hn
  | none =>
    have hc2 := Event.create_parts tbl message_id sk1 et1 rel1
    simp only [Event.get_or_create, hget] at h1
    have he1 : e1 = (Event.create tbl message_id sk1 et1 rel1).1 := by
      rw [h1]
    have ht1 : t1 = (Event.create tbl message_id sk1 et1 rel1).2 := by
      rw [h1]
    have ht1' : t1 = tbl ++ [e1] := by rw [ht1, hc2.1, ← he1]
    have hmid : e1.message_id = message_id := by rw [he1]; exact hc2.2
    have hfindnil :
        tbl.find? (fun e => decide (e.message_id = message_id)) = none := hget
    have hget2 : Event.get t1 message_id = some e1 := by
      unfold Event.get
      rw [ht1', List.find?_append, hfindnil]
      simp [hmid]
    simp only [Event.get_or_create, hget2] at h2
    rw [Prod.mk.injEq] at h2
    obtain ⟨he2, ht2⟩ := h2
    refine ⟨he2.symm, ht2.symm, fun _ => ⟨?_, ?_⟩⟩
    · rw [ht1', List.filter_append]
      have hnil : tbl.filter (fun e => decide (e.message_id = message_id)) = [] := by
        rw [List.filter_eq_nil_iff]
        intro a ha
        exact List.find?_eq_none.mp hfindnil a ha
      rw [hnil]
      simp [hmid]
    · rw [ht1']
      simp

def wEvent : Event := ⟨0, "m1", "k1", IntOrStr.int 3, true⟩

theorem get_or_create_idempotent_witness :
    wEvent = wEvent ∧ [wEvent] = [wEvent] ∧
    (Event.get [] "m1" = none →
      (([wEvent] : List Event).filter
        (fun e => e.message_id = "m1")).length = 1 ∧
      ([wEvent] : List Event).length = ([] : List Event).length + 1) :=
  get_or_create_idempotent [] "m1" "k1" "k2" (.int 3) (.int 4) true false
    wEvent wEvent [wEvent] [wEvent] rfl rfl

/-! ## Claim C8: enum validation on `state` and `type` writes -/

/-- The claim-side characterization of an accepted `state` write: a
canonical integer code, or the lower-cased name of a member. -/
def ValidStateInput (v : IntOrStr) : Prop :=
  (∃ m ∈ ArtifactBuildState.all, v = .int m.value) ∨
  (∃ m ∈ ArtifactBuildState.all, v = .str (pyLower m.name))

/-- The claim-side characterization of an accepted `type` write. -/
def ValidTypeInput (v : IntOrStr) : Prop :=
  (∃ m ∈ ArtifactType.all, v = .int m.value) ∨
  (∃ m ∈ ArtifactType.all, v = .str (pyLower m.name))

instance (v : IntOrStr) : Decidable (ValidStateInput v) := by
  unfold ValidStateInput; infer_instance

instance (v : IntOrStr) : Decidable (ValidTypeInput v) := by
  unfold ValidTypeInput; infer_instance

/-- Claim C8: a write of `state` or `type` accepts the canonical integer
code (stored as-is) and the lower-cased enum member name (normalized to
the member's integer code); every other value fails with an error naming
the column, the offending value and the enumeration's members, and — the
validator raising before assignment — produces no updated row.  The model
routes every write, at creation and later, through the validator, which is
how SQLAlchemy applies an `@validates` hook. -/
theorem enum_write_validation :
    (∀ (b : ArtifactBuild) (m : ArtifactBuildState),
      m ∈ ArtifactBuildState.all →
      b.writeState (.int m.value) = .ok { b with state := m.value } ∧
      b.writeState (.str (pyLower m.name)) = .ok { b with state := m.value }) ∧
    (∀ (b : ArtifactBuild) (v : IntOrStr), ¬ ValidStateInput v →
      b.writeState v = .error ⟨"state", v, artifactBuildStateRepr⟩) ∧
    (∀ (b : ArtifactBuild) (m : ArtifactType), m ∈ ArtifactType.all →
      b.writeType (.int m.value) = .ok { b with type := m.value } ∧
      b.writeType (.str (pyLower m.name)) = .ok { b with type := m.value }) ∧
    (∀ (b : ArtifactBuild) (v : IntOrStr), ¬ ValidTypeInput v →
      b.writeType v = .error ⟨"type", v, artifactTypeRepr⟩) := by
  refine ⟨?_, ?_, ?_, ?_⟩
  · intro b m hm
    have hm' : m = ArtifactBuildState.BUILD ∨ m = ArtifactBuildState.DONE ∨
        m = ArtifactBuildState.FAILED ∨ m = ArtifactBuildState.CANCELED := by
      simpa [ArtifactBuildState.all] using hm
    rcases hm' with rfl | rfl | rfl | rfl <;> exact ⟨rfl, rfl⟩
  · intro b v hv
    cases v with
    | int n =>
      have hc : ¬ ((ArtifactBuildState.all.map (fun s => s.value)).contains n
          = true) := by
        intro hc
        apply hv
        left
        have hmem : n ∈ ArtifactBuildState.all.map (fun s => s.value) := by
          simpa using hc
        obtain ⟨m, hm, hv'⟩ := List.mem_map.mp hmem
        exact ⟨m, hm, by rw [hv']⟩
      simp only [ArtifactBuild.writeState, validate_state]
      rw [if_neg hc]
      rfl
    | str t =>
      have hc : ¬ ((ArtifactBuildState.all.map
          (fun s => pyLower s.name)).contains t = true) := by
        intro hc
        apply hv
        right
        have hmem : t ∈ ArtifactBuildState.all.map (fun s => pyLower s.name) := by
          simpa using hc
        obtain ⟨m, hm, hv'⟩ := List.mem_map.mp hmem
        exact ⟨m, hm, by rw [hv']⟩
      simp only [ArtifactBuild.writeState, validate_state]
      rw [if_neg hc]
      rfl
  · intro b m hm
    have hm' : m = ArtifactType.RPM ∨ m = ArtifactType.MODULE ∨
        m = ArtifactType.IMAGE := by
      simpa [ArtifactType.all] using hm
    rcases hm' with rfl | rfl | rfl <;> exact ⟨rfl, rfl⟩
  · intro b v hv
    cases v with
    | int n =>
      have hc : ¬ ((ArtifactType.all.map (fun t => t.value)).contains n
          = true) := by
        intro hc
        apply hv
        left
        have hmem : n ∈ ArtifactType.all.map (fun t => t.value) := by
          simpa using hc
        obtain ⟨m, hm, hv'⟩ := List.mem_map.mp hmem
        exact ⟨m, hm, by rw [hv']⟩
      simp only [ArtifactBuild.writeType, validate_type]
      rw [if_neg hc]
      rfl
    | str t =>
      have hc : ¬ ((ArtifactType.all.map
          (fun u => pyLower u.name)).contains t = true) := by
        intro hc
        apply hv
        right
        have hmem : t ∈ ArtifactType.all.map (fun u => pyLower u.name) := by
          simpa using hc
        obtain ⟨m, hm, hv'⟩ := List.mem_map.mp hmem
        exact ⟨m, hm, by rw [hv']⟩
      simp only [ArtifactBuild.writeType, validate_type]
      rw [if_neg hc]
      rfl

theorem enum_write_validation_witness :
    witnessRowA.writeState (.str "failed") =
      .ok { witnessRowA with state := ArtifactBuildState.FAILED.value } ∧
    witnessRowA.writeState (.int 99) =
      .error ⟨"state", .int 99, artifactBuildStateRepr⟩ ∧
    witnessRowA.writeType (.int 9999) =
      .error ⟨"type", .int 9999, artifactTypeRepr⟩ :=
  ⟨(enum_write_validation.1 witnessRowA ArtifactBuildState.FAILED
      (by decide)).2,
   enum_write_validation.2.1 witnessRowA (.int 99) (by decide),
   enum_write_validation.2.2.2 witnessRowA (.int 9999) (by decide)⟩

/-! ## Claim C9: the event-type registry -/

theorem EVENT_TYPES_find {kind : String} {code : Nat}
    (h : (kind, code) ∈ EVENT_TYPES) :
    EVENT_TYPES.find? (fun kv => kv.1 = kind) = some (kind, code) := by
  fin_cases h <;> rfl

/-- Claim C9 (amended): `Event.create` translates a known event kind to its
integer code, but stores any *other* `event_type` value exactly as given,
without raising — there is no UnknownKind check on the storage path (the
`if event_type in EVENT_TYPES` guard simply skips the translation).
Decoding via the `event_type` property does fail (Python `KeyError`
carrying the missing key) for any stored value that is not a code assigned
to some kind, and returns the kind for every assigned code. -/
theorem event_type_registry_behavior :
    (∀ (tbl : List Event) (m k : String) (rel : Bool) (kind : String)
        (code : Nat), (kind, code) ∈ EVENT_TYPES →
      (Event.create tbl m k (.str kind) rel).1.event_type_id = .int code) ∧
    (∀ (tbl : List Event) (m k : String) (rel : Bool) (n : Nat),
      (Event.create tbl m k (.int n) rel).1.event_type_id = .int n) ∧
    (∀ (e : Event) (n : Nat), e.event_type_id = .int n →
      INVERSE_EVENT_TYPES.find? (fun kv => kv.1 = n) = none →
      e.event_type = .error (.int n)) ∧
    (∀ p ∈ INVERSE_EVENT_TYPES,
      Event.event_type ⟨0, "", "", .int p.1, true⟩ = .ok p.2) := by
  refine ⟨?_, ?_, ?_, ?_⟩
  · intro tbl m k rel kind code h
    simp only [Event.create]
    rw [EVENT_TYPES_find h]
  · intro tbl m k rel n
    rfl
  · intro e n h1 h2
    simp only [Event.event_type, h1]
    rw [h2]
  · intro p hp
    fin_cases hp <;> rfl

/-- Claim C9 counterexample: `Event.create` called with the unassigned
code 999 succeeds and stores 999 silently — no UnknownKind error — even
though 999 codes no kind; only the *decode* direction fails. -/
theorem C9_counterexample :
    (Event.create [] "m" "k" (.int 999) true).1.event_type_id = .int 999 ∧
    (Event.create [] "m" "k" (.int 999) true).2.length = 1 ∧
    (∀ kv ∈ EVENT_TYPES, kv.2 ≠ 999) ∧
    Event.event_type (Event.create [] "m" "k" (.int 999) true).1 =
      .error (.int 999) := by
  exact ⟨rfl, rfl, by decide, rfl⟩

theorem event_type_registry_behavior_witness :
    (Event.create [] "m" "k" (.str "TestingEvent") true).1.event_type_id =
      .int 3 ∧
    Event.event_type ⟨0, "", "", .int 999, true⟩ = .error (.int 999) :=
  ⟨event_type_registry_behavior.1 [] "m" "k" true "TestingEvent" 3
      (by decide),
   event_type_registry_behavior.2.2.1 ⟨0, "", "", .int 999, true⟩ 999 rfl
      rfl⟩

/-! ## Claim C10: defaults at creation -/

/-- Claim C10: `ArtifactBuild.create` without an explicit state argument
creates the build in state BUILD, with `time_submitted` set to the
creation time and `time_completed` unset. -/
theorem create_default_state
    (tbl : List ArtifactBuild) (event_id : Option Nat) (name : String)
    (type : Nat) (build_id dep_on : Option Nat)
    (onvr rnvr : Option String) (now : Nat)
    (htype : (ArtifactType.all.map (fun t => t.value)).contains type
      = true) :
    ∃ b, ArtifactBuild.create tbl event_id name type build_id dep_on none
        onvr rnvr now = .ok (b, tbl ++ [b]) ∧
      b.state = ArtifactBuildState.BUILD.value ∧
      b.time_submitted = now ∧
      b.time_completed = none := by
  refine ⟨⟨tbl.length, name, onvr, rnvr, type,
    ArtifactBuildState.BUILD.value, none, now, none, dep_on,
    event_id, build_id, none⟩, ?_, rfl, rfl, rfl⟩
  have hvt : validate_type "type" (.int type) = Except.ok type := by
    simp only [validate_type]
    rw [if_pos htype]
  unfold ArtifactBuild.create
  rw [hvt]
  rfl

theorem create_default_state_witness :
    ∃ b, ArtifactBuild.create [] (some 1) "img" 0 none none none
        none none 4 = .ok (b, [] ++ [b]) ∧
      b.state = ArtifactBuildState.BUILD.value ∧
      b.time_submitted = 4 ∧
      b.time_completed = none :=
  create_default_state [] (some 1) "img" 0 none none none none 4 (by decide)
